import Mathlib

/-!
# Verification of the SSE pub/sub core of `server_tasks.py`

Shallow embedding of the event fan-out / live-update core of the
`conversia25-droid/tarefas` repository (file `server_tasks.py`):

* the module-level registry `subscribers = defaultdict(list)` mapping a
  username to the list of `queue.Queue` objects of its open sessions;
* `sse_publish(username, event)` (lines 74-79);
* the `/api/stream` handler `api_stream` (lines 81-115), with its inner
  `stream()` generator and its `finally` cleanup;
* the observation-notification step shared by `add_task_log`
  (lines 711-715) and `api_add_observation` (lines 923-927).

Python objects are modelled by reference: a `Channel` value models one
`queue.Queue`, the process state `PubSub` holds a heap of all created
queues (a channel id is an index into that heap) and the registry maps
usernames to lists of channel ids, mirroring the fact that the Python
dict holds references to shared mutable queue objects.
-/

set_option autoImplicit false

namespace Tarefas

universe u

variable {E : Type u}

/-- One `queue.Queue` object.  As in Python, `maxsize ≤ 0` means the queue
is unbounded; `Queue()` (as created by `api_stream`) has `maxsize = 0`.
`items` are the queued events, front of the list = next to be dequeued. -/
structure Channel (E : Type u) where
  maxsize : Int
  items : List E
  deriving Repr, DecidableEq

/-- Python `q.put_nowait(e)`: raises `queue.Full` (modelled as `none`) iff the
queue is bounded and currently holds at least `maxsize` items; otherwise
appends the event at the back. -/
def Channel.put_nowait (c : Channel E) (e : E) : Option (Channel E) :=
  if 0 < c.maxsize ∧ c.maxsize ≤ (c.items.length : Int) then none
  else some { c with items := c.items ++ [e] }

/-- The registry type behind `subscribers = defaultdict(list)`:
an association list from username to the list of channel ids subscribed
under that username (insertion order, as a Python dict). -/
abbrev Registry := List (String × List Nat)

/-- Python `d.get(k, [])` — the non-inserting dict lookup used by `sse_publish`. -/
def dictGet (d : Registry) (k : String) : List Nat :=
  match d.find? (fun kv => kv.1 = k) with
  | some kv => kv.2
  | none => []

/-- Python `defaultdict.__getitem__`: returns the entry for `k`, inserting a fresh
empty list when the key is missing (this is `subscribers[username]`, used
by the subscription append and by the `finally` cleanup). -/
def dictGetItem (d : Registry) (k : String) : List Nat × Registry :=
  match d.find? (fun kv => kv.1 = k) with
  | some kv => (kv.2, d)
  | none => ([], d ++ [(k, [])])

/-- In-place mutation of the list object stored under key `k`
(Python's `subscribers[k].append(...)` / `.remove(...)` mutate the stored
list; here we rebuild the dict with the new list under `k`). -/
def dictSet (d : Registry) (k : String) (v : List Nat) : Registry :=
  d.map (fun kv => if kv.1 = k then (kv.1, v) else kv)

/-- The process-wide state of the pub/sub core: the `subscribers` dict
plus the heap of all `Queue` objects created so far (channel id =
heap index). -/
structure PubSub (E : Type u) where
  registry : Registry
  heap : List (Channel E)
  deriving Repr, DecidableEq

/-- The state at process start: empty `defaultdict`, no queues. -/
def PubSub.init : PubSub E := { registry := [], heap := [] }

/-- One iteration of the loop body of `sse_publish`:
`try: q.put_nowait(event) except Exception: pass` applied to the queue
with id `cid`.  A `Full` (or out-of-range) failure is swallowed and the
heap is unchanged. -/
def putHeap (heap : List (Channel E)) (cid : Nat) (e : E) : List (Channel E) :=
  match heap[cid]? with
  | none => heap
  | some c =>
    match c.put_nowait e with
    | some c2 => heap.set cid c2
    | none => heap

/-- Source `sse_publish(username, event)` (lines 74-79):

```python
def sse_publish(username, event):
    for q in list(subscribers.get(username, [])):
        try:
            q.put_nowait(event)
        except Exception:
            pass
```

The snapshot `list(subscribers.get(username, []))` is `dictGet`; the dict
itself is never written. -/
def sse_publish (st : PubSub E) (username : String) (event : E) : PubSub E :=
  let snapshot := dictGet st.registry username
  { st with heap := snapshot.foldl (fun h cid => putHeap h cid event) st.heap }

/-- The registration step of `api_stream` (lines 93-94):
`q = Queue(); subscribers[username].append(q)`.  Creates a fresh unbounded
queue, appends its id to the username's list (creating the defaultdict
entry when missing), and returns the new channel's id. -/
def subscribe (st : PubSub E) (username : String) : Nat × PubSub E :=
  let q : Channel E := { maxsize := 0, items := [] }
  let cid := st.heap.length
  let (lst, reg) := dictGetItem st.registry username
  (cid, { registry := dictSet reg username (lst ++ [cid]),
          heap := st.heap ++ [q] })

/-- Python's `list.remove(x)`: removes the first occurrence, `none` models
the `ValueError` raised when `x` is absent. -/
def listRemoveFirst (l : List Nat) (x : Nat) : Option (List Nat) :=
  match l with
  | [] => none
  | y :: ys =>
    if y = x then some ys
    else (listRemoveFirst ys x).map (fun r => y :: r)

/-- The `finally` cleanup of the `stream()` generator (lines 104-108):

```python
finally:
    try:
        subscribers[username].remove(q)
    except ValueError:
        pass
```

`subscribers[username]` is a defaultdict access (inserts an empty entry if
the key is missing), and the `ValueError` of `remove` on an absent element
is swallowed. -/
def unsubscribe (st : PubSub E) (username : String) (cid : Nat) : PubSub E :=
  match listRemoveFirst (dictGetItem st.registry username).1 cid with
  | some lst2 =>
    { st with registry := dictSet (dictGetItem st.registry username).2 username lst2 }
  | none => { st with registry := (dictGetItem st.registry username).2 }

/-! ## JSON values and `json.dumps`

The events published in `server_tasks.py` are Python dicts of strings,
ints, bools and nested dicts; the `stream()` generator serializes them
with `json.dumps(ev, default=str)`. -/

/-- A JSON value, covering the payload shapes the server publishes. -/
inductive Json where
  | jstr (s : String)
  | jint (n : Int)
  | jbool (b : Bool)
  | jnull
  | jobj (kvs : List (String × Json))
  deriving Repr

/-- The string-escaping of `json.dumps` restricted to the characters that
need it among the payloads at hand (backslash and double quote). -/
def jescape (s : String) : String :=
  s.data.foldl
    (fun acc c =>
      if c = '\\' then acc ++ "\\\\"
      else if c = '"' then acc ++ "\\\""
      else acc.push c) ""

mutual

/-- Python `json.dumps` with the default separators `", "` and `": "`, as called
by the `stream()` generator. -/
def Json.dumps : Json → String
  | .jstr s => "\"" ++ jescape s ++ "\""
  | .jint n => toString n
  | .jbool b => if b then "true" else "false"
  | .jnull => "null"
  | .jobj kvs => "\x7b" ++ dumpsPairs kvs ++ "\x7d"

/-- Comma-separated `"key": value` members of an object. -/
def dumpsPairs : List (String × Json) → String
  | [] => ""
  | [(k, v)] => "\"" ++ jescape k ++ "\": " ++ Json.dumps v
  | (k, v) :: rest =>
    "\"" ++ jescape k ++ "\": " ++ Json.dumps v ++ ", " ++ dumpsPairs rest

end

/-! ## The `/api/stream` session -/

/-- Python `str.strip()` on the ASCII whitespace characters (the only ones
relevant to the query parameters at hand). -/
def pyIsSpace (c : Char) : Bool :=
  c = ' ' || c = '\t' || c = '\n' || c = '\r' || c = '\x0b' || c = '\x0c'

/-- Python `s.strip()`. -/
def pyStrip (s : String) : String :=
  ⟨((s.data.dropWhile pyIsSpace).reverse.dropWhile pyIsSpace).reverse⟩

/-- The SSE frame for one dequeued event, as yielded by the `stream()`
loop body (line 101): `event: task` followed by the JSON data line and a
blank line. -/
def taskFrame (dumps : E → String) (ev : E) : String :=
  "event: task\ndata: " ++ dumps ev ++ "\n\n"

/-- The `hello` frame yielded first by every `stream()` generator
(line 97). -/
def helloFrame : String := "event: hello\ndata: \x7b\"ok\": true\x7d\n\n"

/-- The single frame yielded by the `_end()` generator for an unknown
subscriber (line 90). -/
def errorFrame : String := "event: error\ndata: \x7b\"error\":\"user_not_found\"\x7d\n\n"

/-- The finite trace of SSE frames written by a `stream()` generator that
has delivered the events `evs` (in queue order): the `hello` frame, then
one `task` frame per dequeued event.  The generator itself loops forever;
this is its output truncated after `evs.length` deliveries. -/
def streamOutput (dumps : E → String) (evs : List E) : List String :=
  helloFrame :: evs.map (taskFrame dumps)

/-- The response of the `/api/stream` handler, before the body generator
runs: a 400 plain-text error, the single-frame error stream of `_end()`,
or a live session holding the freshly subscribed channel. -/
inductive StreamResponse where
  | badRequest (body : String) (status : Nat)
  | errorStream (frames : List String)
  | session (chanId : Nat)
  deriving Repr, DecidableEq

/-- The `api_stream` handler (lines 81-115) up to and including channel
registration.  `users` is the set of usernames present in the user
directory (`User.query.filter_by(username=...).first()` succeeds iff the
name is in it); `usernameParam` is `request.args.get("username", "")`.

* missing/blank username → `400 "username é obrigatório"`;
* a non-`"admin"` username absent from the directory → the `_end()`
  response: one `error` frame, no registration;
* otherwise → `Queue()` is created and appended under the username. -/
def api_stream (users : List String) (st : PubSub E) (usernameParam : String) :
    StreamResponse × PubSub E :=
  let username := pyStrip usernameParam
  if username = "" then (.badRequest "username é obrigatório" 400, st)
  else if username ≠ "admin" ∧ ¬ users.contains username then
    (.errorStream [errorFrame], st)
  else
    (.session (subscribe st username).1, (subscribe st username).2)

/-! ## Observation notifications

The notification step shared (verbatim but for the log status) by
`add_task_log` (lines 711-715) and `api_add_observation` (lines 923-927).
-/

/-- The `new_observation` payload built at lines 713/715 and 925/927:
`{"type": "new_observation", "task_id": t.id, "message": message,
"user": author}` where `author` is the username that wrote the
observation (`u.username` resp. `user.username`). -/
def observationEvent (taskId : Int) (message author : String) : Json :=
  .jobj [("type", .jstr "new_observation"), ("task_id", .jint taskId),
         ("message", .jstr message), ("user", .jstr author)]

/-- Lines 711-715 (identically 923-927):

```python
target_username = t.assigned_to.username if t.assigned_to else "admin"
sse_publish(target_username, {"type": "new_observation", ...})
if target_username != "admin":
    sse_publish("admin", {"type": "new_observation", ...})
```

`assignee` is `t.assigned_to.username` when the task is assigned.  Note
the target computation does not consult `author`; the author's name only
appears inside the payload. -/
def notifyObservation (st : PubSub Json) (assignee : Option String)
    (taskId : Int) (message author : String) : PubSub Json :=
  let target := match assignee with
    | some a => a
    | none => "admin"
  let ev := observationEvent taskId message author
  let st1 := sse_publish st target ev
  if target ≠ "admin" then sse_publish st1 "admin" ev else st1

/-! ## Registry lemmas -/

/-- Whether the dict currently has an entry for `k` (no defaultdict
insertion). -/
def hasKey (d : Registry) (k : String) : Bool :=
  (d.find? (fun kv => kv.1 = k)).isSome

theorem fst_dictGetItem (d : Registry) (k : String) :
    (dictGetItem d k).1 = dictGet d k := by
  unfold dictGetItem dictGet
  cases d.find? (fun kv => kv.1 = k) <;> rfl

theorem dictGetItem_of_hasKey {d : Registry} {k : String}
    (h : hasKey d k = true) : dictGetItem d k = (dictGet d k, d) := by
  unfold hasKey at h
  unfold dictGetItem dictGet
  cases hd : d.find? (fun kv => kv.1 = k) with
  | none => rw [hd] at h; simp at h
  | some kv => rfl

theorem dictGet_append_single (d : Registry) (k : String) :
    dictGet (d ++ [(k, [])]) k = dictGet d k := by
  induction d with
  | nil => simp [dictGet, List.find?]
  | cons kv d ih =>
    by_cases h : kv.1 = k
    · simp [dictGet, List.find?, h]
    · simp only [dictGet, List.cons_append, List.find?_cons] at ih ⊢
      simpa [h] using ih

theorem dictGet_dictGetItem_snd (d : Registry) (k : String) :
    dictGet (dictGetItem d k).2 k = dictGet d k := by
  unfold dictGetItem
  cases hd : d.find? (fun kv => kv.1 = k) with
  | none =>
    simp only []
    rw [dictGet_append_single]
  | some kv => rfl

theorem hasKey_dictGetItem (d : Registry) (k : String) :
    hasKey (dictGetItem d k).2 k = true := by
  unfold dictGetItem
  cases hd : d.find? (fun kv => kv.1 = k) with
  | none =>
    simp only [hasKey]
    induction d with
    | nil => simp [List.find?]
    | cons kv d ih =>
      simp only [List.find?_cons] at hd ⊢
      cases hp : (decide (kv.1 = k)) with
      | true => rw [hp] at hd; simp at hd
      | false =>
        rw [hp] at hd
        simp only [List.cons_append]
        rw [List.find?_cons, hp]
        exact ih hd
  | some kv => simp [hasKey, hd]

theorem dictGet_dictSet_self {d : Registry} {k : String} (v : List Nat)
    (h : hasKey d k = true) : dictGet (dictSet d k v) k = v := by
  induction d with
  | nil => simp [hasKey, List.find?] at h
  | cons kv d ih =>
    by_cases hk : kv.1 = k
    · simp [dictGet, dictSet, List.find?, hk]
    · simp only [hasKey, List.find?_cons] at h
      simp [dictGet, dictSet, List.find?, hk] at ih ⊢
      exact ih (by simpa [hasKey, hk] using h)

/-- Effect of `subscribe` on its own key: the fresh channel id
(`st.heap.length`) is appended to the key's list. -/
theorem dictGet_subscribe_self (st : PubSub E) (k : String) :
    dictGet (subscribe st k).2.registry k
      = dictGet st.registry k ++ [st.heap.length] := by
  unfold subscribe
  simp only []
  rw [dictGet_dictSet_self _ (hasKey_dictGetItem _ _), fst_dictGetItem]

theorem heap_subscribe (st : PubSub E) (k : String) :
    (subscribe st k).2.heap = st.heap ++ [{ maxsize := 0, items := [] }] := rfl

theorem fst_subscribe (st : PubSub E) (k : String) :
    (subscribe st k).1 = st.heap.length := rfl

/-! ## `putHeap` frame lemmas -/

theorem putHeap_getElem?_ne {heap : List (Channel E)} {cid j : Nat}
    (e : E) (h : cid ≠ j) : (putHeap heap cid e)[j]? = heap[j]? := by
  unfold putHeap
  split
  · rfl
  · split
    · simp [List.getElem?_set_ne h]
    · rfl

theorem foldl_putHeap_not_mem {l : List Nat} {heap : List (Channel E)}
    {j : Nat} (e : E) (h : j ∉ l) :
    (l.foldl (fun h cid => putHeap h cid e) heap)[j]? = heap[j]? := by
  induction l generalizing heap with
  | nil => rfl
  | cons x l ih =>
    simp only [List.foldl_cons]
    rw [ih (fun hm => h (List.mem_cons_of_mem x hm))]
    exact putHeap_getElem?_ne e (fun hx => h (hx ▸ List.mem_cons_self x l))

/-- A successful `put_nowait` (in particular on any unbounded queue)
appends the event at the back of the queue. -/
theorem putHeap_success {heap : List (Channel E)} {cid : Nat}
    {c : Channel E} (e : E) (hc : heap[cid]? = some c)
    (hok : ¬ (0 < c.maxsize ∧ c.maxsize ≤ (c.items.length : Int))) :
    (putHeap heap cid e)[cid]? =
      some { maxsize := c.maxsize, items := c.items ++ [e] } := by
  unfold putHeap
  rw [hc]
  simp only [Channel.put_nowait, if_neg hok]
  have hlt : cid < heap.length := by
    rcases List.getElem?_eq_some.mp hc with ⟨h, _⟩
    exact h
  simp [List.getElem?_set_self hlt]

/-- A failed `put_nowait` (full bounded queue) is swallowed by the
`except Exception: pass` and leaves the heap unchanged. -/
theorem putHeap_full {heap : List (Channel E)} {cid : Nat}
    {c : Channel E} (e : E) (hc : heap[cid]? = some c)
    (hfull : 0 < c.maxsize ∧ c.maxsize ≤ (c.items.length : Int)) :
    putHeap heap cid e = heap := by
  unfold putHeap
  rw [hc]
  simp [Channel.put_nowait, if_pos hfull]

/-- Fact: `sse_publish` never writes the subscribers dict. -/
theorem registry_sse_publish (st : PubSub E) (k : String) (e : E) :
    (sse_publish st k e).registry = st.registry := rfl

/-- Publishing to a key whose snapshot does not contain `cid` leaves the
queue `cid` untouched. -/
theorem publish_not_subscribed {st : PubSub E} {k : String} {cid : Nat}
    (e : E) (h : cid ∉ dictGet st.registry k) :
    (sse_publish st k e).heap[cid]? = st.heap[cid]? :=
  foldl_putHeap_not_mem e h

/-! ## `listRemoveFirst` and `unsubscribe` lemmas -/

theorem listRemoveFirst_eq_none {l : List Nat} {x : Nat} (h : x ∉ l) :
    listRemoveFirst l x = none := by
  induction l with
  | nil => rfl
  | cons y ys ih =>
    have hyx : ¬ y = x := fun he => h (he ▸ List.mem_cons_self y ys)
    have h2 := ih (fun hm => h (List.mem_cons_of_mem y hm))
    simp [listRemoveFirst, hyx, h2]

theorem not_mem_of_listRemoveFirst {l l2 : List Nat} {x : Nat}
    (hcount : l.count x ≤ 1) (hr : listRemoveFirst l x = some l2) :
    x ∉ l2 := by
  induction l generalizing l2 with
  | nil => simp [listRemoveFirst] at hr
  | cons y ys ih =>
    by_cases hyx : y = x
    · simp only [listRemoveFirst, if_pos hyx] at hr
      cases hr
      subst hyx
      have : ys.count y = 0 := by
        have := List.count_cons_self y ys
        omega
      exact List.count_eq_zero.mp this
    · simp only [listRemoveFirst, if_neg hyx] at hr
      cases hys : listRemoveFirst ys x with
      | none => rw [hys] at hr; simp at hr
      | some r =>
        rw [hys] at hr
        simp at hr
        subst hr
        have hc : ys.count x ≤ 1 := by
          have := List.count_cons x y ys
          simp [hyx] at this
          omega
        intro hm
        rcases List.mem_cons.mp hm with he | hm2
        · exact hyx he.symm
        · exact ih hc hys hm2

theorem heap_unsubscribe (st : PubSub E) (k : String) (cid : Nat) :
    (unsubscribe st k cid).heap = st.heap := by
  unfold unsubscribe
  split <;> rfl

/-- What `unsubscribe` does to the key's own channel list: remove the
first occurrence of `cid`, or leave the list as it was when `cid` is
absent (the swallowed `ValueError`). -/
theorem dictGet_unsubscribe (st : PubSub E) (k : String) (cid : Nat) :
    dictGet (unsubscribe st k cid).registry k
      = (match listRemoveFirst (dictGet st.registry k) cid with
         | some l2 => l2
         | none => dictGet st.registry k) := by
  unfold unsubscribe
  rw [fst_dictGetItem]
  cases hr : listRemoveFirst (dictGet st.registry k) cid with
  | none => simpa using dictGet_dictGetItem_snd st.registry k
  | some l2 => simpa using dictGet_dictSet_self l2 (hasKey_dictGetItem _ _)

/-- Computation of `putHeap` once the queue object is known. -/
theorem putHeap_of_some {heap : List (Channel E)} {cid : Nat}
    {c : Channel E} (e : E) (hc : heap[cid]? = some c) :
    putHeap heap cid e =
      (match c.put_nowait e with
       | some c2 => heap.set cid c2
       | none => heap) := by
  unfold putHeap
  rw [hc]

/-- Effect of the fan-out loop on one queue: when a queue id occurs at
most once in the snapshot, the queue either receives the event by a
successful `put_nowait` or is left unchanged. -/
theorem foldl_putHeap_spec {cid : Nat} {c : Channel E} (e : E) :
    ∀ (l : List Nat) (heap : List (Channel E)),
      l.count cid ≤ 1 → heap[cid]? = some c →
      ∃ c', (l.foldl (fun h j => putHeap h j e) heap)[cid]? = some c' ∧
        (c' = c ∨ c.put_nowait e = some c') := by
  intro l
  induction l with
  | nil => exact fun heap _ hc => ⟨c, hc, Or.inl rfl⟩
  | cons x l ih =>
    intro heap hcount hc
    by_cases hx : x = cid
    · subst hx
      rw [List.count_cons_self] at hcount
      have hl : x ∉ l := List.count_eq_zero.mp (by omega)
      rw [List.foldl_cons, putHeap_of_some e hc]
      cases hput : c.put_nowait e with
      | some c2 =>
        refine ⟨c2, ?_, Or.inr rfl⟩
        rw [foldl_putHeap_not_mem e hl]
        have hlt : x < heap.length := by
          rcases List.getElem?_eq_some.mp hc with ⟨hlt, _⟩
          exact hlt
        simp [List.getElem?_set_self hlt]
      | none =>
        refine ⟨c, ?_, Or.inl rfl⟩
        rw [foldl_putHeap_not_mem e hl]
        exact hc
    · have hcount2 : l.count cid ≤ 1 := by
        simp only [List.count_cons, Ne.symm hx] at hcount
        simp at hcount
        omega
      rw [List.foldl_cons]
      exact ih _ hcount2 (by rw [putHeap_getElem?_ne e hx]; exact hc)

/-- Publishing to a key whose snapshot is the single id `cid` of a
never-full queue appends the event to that queue. -/
theorem publish_single {st : PubSub E} {k : String} {cid : Nat}
    {c : Channel E} (e : E) (hreg : dictGet st.registry k = [cid])
    (hc : st.heap[cid]? = some c) (hm : c.maxsize ≤ 0) :
    (sse_publish st k e).heap[cid]?
      = some { maxsize := c.maxsize, items := c.items ++ [e] } := by
  have hok : ¬ (0 < c.maxsize ∧ c.maxsize ≤ (c.items.length : Int)) := by
    intro hfull
    omega
  show ((dictGet st.registry k).foldl (fun h j => putHeap h j e) st.heap)[cid]?
      = _
  rw [hreg]
  exact putHeap_success e hc hok

/-! ## Claim theorems -/

/-- C1: for every subscriber key with zero registered channels and every
event, `sse_publish` returns normally (it is a total function) and has no
observable effect: the whole state — registry and every queue — is
exactly what it was. -/
theorem publish_no_subscribers (st : PubSub E) (k : String) (e : E)
    (h : dictGet st.registry k = []) : sse_publish st k e = st := by
  unfold sse_publish
  rw [h]
  rfl

/-- Witness for C1: publishing to `"Bob"` in the initial state (no
subscribers at all) is a silent no-op. -/
theorem publish_no_subscribers_witness :
    sse_publish (PubSub.init : PubSub Nat) "Bob" 7 = PubSub.init :=
  publish_no_subscribers PubSub.init "Bob" 7 rfl

/-- C2: FIFO per channel.  With a single never-full queue `cid`
subscribed under `k`, publishing `e1` and then `e2` to `k` leaves the
queue holding `... ++ [e1, e2]` — `e1` strictly ahead of `e2` — and the
`stream()` generator, which dequeues and yields in queue order, writes
the `task` frame of `e1` before that of `e2`. -/
theorem publish_fifo_order (st : PubSub E) (k : String) (cid : Nat)
    (c : Channel E) (e1 e2 : E) (d : E → String)
    (hreg : dictGet st.registry k = [cid])
    (hc : st.heap[cid]? = some c) (hm : c.maxsize = 0) :
    (sse_publish (sse_publish st k e1) k e2).heap[cid]?
      = some { maxsize := 0, items := c.items ++ [e1, e2] } ∧
    streamOutput d (c.items ++ [e1, e2])
      = helloFrame ::
          (c.items.map (taskFrame d) ++ [taskFrame d e1, taskFrame d e2]) := by
  constructor
  · have h1 : (sse_publish st k e1).heap[cid]?
        = some { maxsize := c.maxsize, items := c.items ++ [e1] } :=
      publish_single e1 hreg hc (by omega)
    have hreg1 : dictGet (sse_publish st k e1).registry k = [cid] := by
      rw [registry_sse_publish]
      exact hreg
    have h2 := publish_single e2 hreg1 h1
      (by simp [hm])
    rw [h2]
    simp [hm, List.append_assoc]
  · simp [streamOutput]

/-- Witness for C2: a fresh channel subscribed under `"Ana"` receives
`1` then `2` in publish order. -/
theorem publish_fifo_order_witness :
    (sse_publish (sse_publish
        { registry := [("Ana", [0])], heap := [{ maxsize := 0, items := [] }] }
        "Ana" (1 : Nat)) "Ana" 2).heap[0]?
      = some { maxsize := 0, items := ([] : List Nat) ++ [1, 2] } ∧
    streamOutput (fun n : Nat => toString n) (([] : List Nat) ++ [1, 2])
      = helloFrame ::
          (([] : List Nat).map (taskFrame fun n => toString n) ++
            [taskFrame (fun n => toString n) 1,
             taskFrame (fun n => toString n) 2]) :=
  publish_fifo_order
    { registry := [("Ana", [0])], heap := [{ maxsize := 0, items := [] }] }
    "Ana" 0 { maxsize := 0, items := [] } 1 2 (fun n => toString n)
    (by decide) rfl rfl

/-- C3: subscribing twice under the same key yields two distinct channel
ids, both of which remain registered under the key (appended after any
channels already there), and one subsequent publish enqueues the event
into both fresh queues.  The hypothesis says the ids already registered
under `k` are valid heap references, which holds in every reachable
state. -/
theorem subscribe_twice_fanout (st : PubSub E) (k : String) (e : E)
    (hbound : ∀ j ∈ dictGet st.registry k, j < st.heap.length) :
    (subscribe st k).1 ≠ (subscribe (subscribe st k).2 k).1 ∧
    dictGet (subscribe (subscribe st k).2 k).2.registry k
      = dictGet st.registry k
          ++ [(subscribe st k).1, (subscribe (subscribe st k).2 k).1] ∧
    (sse_publish (subscribe (subscribe st k).2 k).2 k e).heap[(subscribe st k).1]?
      = some { maxsize := 0, items := [e] } ∧
    (sse_publish (subscribe (subscribe st k).2 k).2 k e).heap[(subscribe (subscribe st k).2 k).1]?
      = some { maxsize := 0, items := [e] } := by
  have hc1 : (subscribe st k).1 = st.heap.length := rfl
  have hc2 : (subscribe (subscribe st k).2 k).1 = st.heap.length + 1 := by
    rw [fst_subscribe, heap_subscribe, List.length_append]
    rfl
  have hreg2 : dictGet (subscribe (subscribe st k).2 k).2.registry k
      = dictGet st.registry k ++ [st.heap.length, st.heap.length + 1] := by
    rw [dictGet_subscribe_self, dictGet_subscribe_self, heap_subscribe,
      List.length_append]
    simp
  have hheap2 : (subscribe (subscribe st k).2 k).2.heap
      = (st.heap ++ [{ maxsize := 0, items := [] }])
          ++ [{ maxsize := 0, items := [] }] := by
    rw [heap_subscribe, heap_subscribe]
  have hg1 : (subscribe (subscribe st k).2 k).2.heap[st.heap.length]?
      = some { maxsize := 0, items := ([] : List E) } := by
    rw [hheap2, List.getElem?_append_left (by simp)]
    exact List.getElem?_concat_length _ _
  have hg2 : (subscribe (subscribe st k).2 k).2.heap[st.heap.length + 1]?
      = some { maxsize := 0, items := ([] : List E) } := by
    rw [hheap2]
    have hlen : st.heap.length + 1
        = (st.heap ++ [({ maxsize := 0, items := [] } : Channel E)]).length := by
      simp
    rw [hlen]
    exact List.getElem?_concat_length _ _
  have hpub : (sse_publish (subscribe (subscribe st k).2 k).2 k e).heap
      = [st.heap.length, st.heap.length + 1].foldl
          (fun h j => putHeap h j e)
          ((dictGet st.registry k).foldl (fun h j => putHeap h j e)
            (subscribe (subscribe st k).2 k).2.heap) := by
    show (dictGet (subscribe (subscribe st k).2 k).2.registry k).foldl
        (fun h j => putHeap h j e) (subscribe (subscribe st k).2 k).2.heap = _
    rw [hreg2, List.foldl_append]
  have hn1 : st.heap.length ∉ dictGet st.registry k :=
    fun hm => absurd (hbound _ hm) (by omega)
  have hn2 : st.heap.length + 1 ∉ dictGet st.registry k :=
    fun hm => absurd (hbound _ hm) (by omega)
  have hL1 : ((dictGet st.registry k).foldl (fun h j => putHeap h j e)
      (subscribe (subscribe st k).2 k).2.heap)[st.heap.length]?
      = some { maxsize := 0, items := ([] : List E) } := by
    rw [foldl_putHeap_not_mem e hn1]
    exact hg1
  have hL2 : ((dictGet st.registry k).foldl (fun h j => putHeap h j e)
      (subscribe (subscribe st k).2 k).2.heap)[st.heap.length + 1]?
      = some { maxsize := 0, items := ([] : List E) } := by
    rw [foldl_putHeap_not_mem e hn2]
    exact hg2
  have hstep1 : (putHeap ((dictGet st.registry k).foldl
        (fun h j => putHeap h j e) (subscribe (subscribe st k).2 k).2.heap)
        st.heap.length e)[st.heap.length]?
      = some { maxsize := 0, items := [e] } := by
    have := putHeap_success e hL1 (by simp)
    simpa using this
  have hstep2pres : (putHeap ((dictGet st.registry k).foldl
        (fun h j => putHeap h j e) (subscribe (subscribe st k).2 k).2.heap)
        st.heap.length e)[st.heap.length + 1]?
      = some { maxsize := 0, items := ([] : List E) } := by
    rw [putHeap_getElem?_ne e (by omega)]
    exact hL2
  refine ⟨by omega, hreg2.trans (by rw [hc1, hc2]), ?_, ?_⟩
  · rw [hc1, hpub]
    simp only [List.foldl_cons, List.foldl_nil]
    rw [putHeap_getElem?_ne e (by omega)]
    exact hstep1
  · rw [hc2, hpub]
    simp only [List.foldl_cons, List.foldl_nil]
    have := putHeap_success e hstep2pres (by simp)
    simpa using this

/-- Witness for C3: two subscriptions under `"Ana"` from the initial
state, then one publish of the event `5`. -/
theorem subscribe_twice_fanout_witness :
    (subscribe (PubSub.init : PubSub Nat) "Ana").1
        ≠ (subscribe (subscribe (PubSub.init : PubSub Nat) "Ana").2 "Ana").1 ∧
    dictGet (subscribe (subscribe (PubSub.init : PubSub Nat) "Ana").2 "Ana").2.registry "Ana"
      = dictGet (PubSub.init : PubSub Nat).registry "Ana"
          ++ [(subscribe (PubSub.init : PubSub Nat) "Ana").1,
              (subscribe (subscribe (PubSub.init : PubSub Nat) "Ana").2 "Ana").1] ∧
    (sse_publish (subscribe (subscribe (PubSub.init : PubSub Nat) "Ana").2 "Ana").2 "Ana" 5).heap[(subscribe (PubSub.init : PubSub Nat) "Ana").1]?
      = some { maxsize := 0, items := [5] } ∧
    (sse_publish (subscribe (subscribe (PubSub.init : PubSub Nat) "Ana").2 "Ana").2 "Ana" 5).heap[(subscribe (subscribe (PubSub.init : PubSub Nat) "Ana").2 "Ana").1]?
      = some { maxsize := 0, items := [5] } :=
  subscribe_twice_fanout PubSub.init "Ana" 5
    (by simp [PubSub.init, dictGet, List.find?])

/-- C8: `sse_publish` never blocks and never raises to the caller: it is
a total function (the embedded `try/except` around `put_nowait` turns the
only possible per-channel failure, `queue.Full`, into a skip), and for
every queue subscribed under the key the publish either enqueues the
event through a successful non-blocking `put_nowait` or — exactly when
`put_nowait` fails — leaves that queue unchanged rather than propagating
the failure. -/
theorem publish_never_blocks_never_raises (st : PubSub E) (k : String)
    (e : E) (cid : Nat) (c : Channel E) (hc : st.heap[cid]? = some c)
    (hcount : (dictGet st.registry k).count cid ≤ 1) :
    ∃ c', (sse_publish st k e).heap[cid]? = some c' ∧
      (c' = c ∨ c.put_nowait e = some c') ∧
      (c.put_nowait e = none → c' = c) := by
  obtain ⟨c', h1, h2⟩ :=
    foldl_putHeap_spec e (dictGet st.registry k) st.heap hcount hc
  refine ⟨c', h1, h2, fun hn => ?_⟩
  rcases h2 with h | h
  · exact h
  · rw [hn] at h
    cases h

/-- Witness for C8: publishing to a key whose only subscribed queue is a
full bounded queue (`maxsize = 1` holding one item) silently skips it. -/
theorem publish_never_blocks_never_raises_witness :
    ∃ c', (sse_publish
        { registry := [("k", [0])],
          heap := [{ maxsize := 1, items := [9] }] } "k" (5 : Nat)).heap[0]?
        = some c' ∧
      (c' = { maxsize := 1, items := [9] } ∨
        Channel.put_nowait { maxsize := 1, items := [9] } 5 = some c') ∧
      (Channel.put_nowait { maxsize := 1, items := [9] } 5 = none →
        c' = { maxsize := 1, items := [9] }) :=
  publish_never_blocks_never_raises
    { registry := [("k", [0])], heap := [{ maxsize := 1, items := [9] }] }
    "k" 5 0 { maxsize := 1, items := [9] } rfl (by decide)

/-- A queue id absent from a key's list stays untouched by any sequence
of publishes to that key (`sse_publish` never writes the registry, so
absence is preserved). -/
theorem publishes_preserve_heap (k : String) (cid : Nat) :
    ∀ (evs : List E) (st : PubSub E), cid ∉ dictGet st.registry k →
      ((evs.foldl (fun s e => sse_publish s k e) st).heap)[cid]?
        = st.heap[cid]? := by
  intro evs
  induction evs with
  | nil => intro st _; rfl
  | cons e evs ih =>
    intro st h
    rw [List.foldl_cons]
    have h2 : cid ∉ dictGet (sse_publish st k e).registry k := by
      rw [registry_sse_publish]
      exact h
    rw [ih _ h2, publish_not_subscribed e h]

theorem not_mem_of_listRemoveFirst_none {l : List Nat} {x : Nat}
    (h : listRemoveFirst l x = none) : x ∉ l := by
  induction l with
  | nil => simp
  | cons y ys ih =>
    by_cases hyx : y = x
    · simp [listRemoveFirst, hyx] at h
    · simp only [listRemoveFirst, if_neg hyx, Option.map_eq_none'] at h
      intro hm
      rcases List.mem_cons.mp hm with he | hm2
      · exact hyx he.symm
      · exact ih h hm2

/-- C4: once the `finally` cleanup has removed channel `cid` from key
`k`'s list, no later publish to `k` ever enqueues anything into that
queue (any sequence of publishes leaves it exactly as it was); and when
the channel is already gone from the key's existing entry, the cleanup
is a no-op rather than an error (the `ValueError` is swallowed).  The
count hypothesis — the channel is registered at most once under the key
— holds in every reachable state since each `subscribe` appends a fresh
id. -/
theorem unsubscribe_stops_delivery (st : PubSub E) (k : String) (cid : Nat)
    (hcount : (dictGet st.registry k).count cid ≤ 1) :
    cid ∉ dictGet (unsubscribe st k cid).registry k ∧
    (∀ evs : List E,
      ((evs.foldl (fun s e => sse_publish s k e)
          (unsubscribe st k cid)).heap)[cid]? = st.heap[cid]?) ∧
    (hasKey st.registry k = true → cid ∉ dictGet st.registry k →
      unsubscribe st k cid = st) := by
  have hmem : cid ∉ dictGet (unsubscribe st k cid).registry k := by
    rw [dictGet_unsubscribe]
    cases hr : listRemoveFirst (dictGet st.registry k) cid with
    | none => exact not_mem_of_listRemoveFirst_none hr
    | some l2 => exact not_mem_of_listRemoveFirst hcount hr
  refine ⟨hmem, fun evs => ?_, fun hk hnm => ?_⟩
  · rw [publishes_preserve_heap k cid evs _ hmem, heap_unsubscribe]
  · unfold unsubscribe
    rw [dictGetItem_of_hasKey hk, listRemoveFirst_eq_none hnm]

/-- Witness for C4: remove the only `"Ana"` channel, then publish `5`
and `6`; the queue receives nothing.  Unsubscribing an id that is not in
the entry (`1`) leaves the state intact. -/
theorem unsubscribe_stops_delivery_witness :
    (0 ∉ dictGet (unsubscribe
        ({ registry := [("Ana", [0])],
           heap := [{ maxsize := 0, items := [] }] } : PubSub Nat)
        "Ana" 0).registry "Ana") ∧
    (([5, 6] : List Nat).foldl (fun s e => sse_publish s "Ana" e)
        (unsubscribe
          ({ registry := [("Ana", [0])],
             heap := [{ maxsize := 0, items := [] }] } : PubSub Nat)
          "Ana" 0)).heap[0]?
      = ({ registry := [("Ana", [0])],
           heap := [{ maxsize := 0, items := [] }] } : PubSub Nat).heap[0]? ∧
    unsubscribe
        ({ registry := [("Ana", [0])],
           heap := [{ maxsize := 0, items := [] }] } : PubSub Nat) "Ana" 1
      = { registry := [("Ana", [0])], heap := [{ maxsize := 0, items := [] }] } :=
  ⟨(unsubscribe_stops_delivery
      { registry := [("Ana", [0])], heap := [{ maxsize := 0, items := [] }] }
      "Ana" 0 (by decide)).1,
   (unsubscribe_stops_delivery
      { registry := [("Ana", [0])], heap := [{ maxsize := 0, items := [] }] }
      "Ana" 0 (by decide)).2.1 [5, 6],
   (unsubscribe_stops_delivery
      { registry := [("Ana", [0])], heap := [{ maxsize := 0, items := [] }] }
      "Ana" 1 (by decide)).2.2 (by decide) (by decide)⟩

/-- C10: `sse_publish` leaves the subscriber registry unchanged — the
mapping of keys to channel lists is identical before and after the call,
and in particular publishing to a key with no entry does not create one
(the lookup is a non-inserting `dict.get` plus a snapshot copy, despite
the registry being a `defaultdict`). -/
theorem publish_registry_frame (st : PubSub E) (k k2 : String) (e : E) :
    (sse_publish st k e).registry = st.registry ∧
    hasKey (sse_publish st k e).registry k2 = hasKey st.registry k2 :=
  ⟨rfl, rfl⟩

/-- C5: a session opened with a non-empty key that is neither `"admin"`
nor a known username registers nothing: the handler answers with the
`_end()` stream — exactly one `error` frame with payload
`{"error":"user_not_found"}` — and the pub/sub state is exactly what it
was, so a key with no registry entry beforehand has none afterward. -/
theorem stream_unknown_user (users : List String) (st : PubSub E)
    (u : String) (hne : u ≠ "") (hs : pyStrip u = u)
    (hadmin : u ≠ "admin") (husers : users.contains u = false) :
    api_stream users st u = (.errorStream [errorFrame], st) ∧
    (dictGet st.registry u = [] →
      dictGet (api_stream users st u).2.registry u = []) := by
  have h1 : api_stream users st u = (.errorStream [errorFrame], st) := by
    unfold api_stream
    rw [hs]
    simp only [if_neg hne]
    rw [if_pos ⟨hadmin, by simpa using husers⟩]
  exact ⟨h1, fun h0 => by rw [h1]; exact h0⟩

/-- Witness for C5: `"Bob"` is not `"admin"` and not in the directory
`["Ana"]`; the session ends with the single error frame and the initial
registry stays empty. -/
theorem stream_unknown_user_witness :
    api_stream ["Ana"] (PubSub.init : PubSub Nat) "Bob"
      = (.errorStream [errorFrame], PubSub.init) ∧
    (dictGet (PubSub.init : PubSub Nat).registry "Bob" = [] →
      dictGet (api_stream ["Ana"] (PubSub.init : PubSub Nat) "Bob").2.registry "Bob"
        = []) :=
  stream_unknown_user ["Ana"] PubSub.init "Bob" (by decide) rfl (by decide)
    (by decide)

/-- C6: a session opened with the administrative key `"admin"` always
registers a channel, whatever the user directory `users` contains — in
particular also when no `"admin"` user record exists: the response is a
live session whose fresh channel id is appended under `"admin"`. -/
theorem stream_admin_always_registers (users : List String) (st : PubSub E) :
    api_stream users st "admin"
      = (.session st.heap.length, (subscribe st "admin").2) ∧
    dictGet (api_stream users st "admin").2.registry "admin"
      = dictGet st.registry "admin" ++ [st.heap.length] := by
  have h1 : api_stream users st "admin"
      = (.session st.heap.length, (subscribe st "admin").2) := by
    unfold api_stream
    have hps : pyStrip "admin" = "admin" := rfl
    rw [hps]
    rw [if_neg (by decide : ¬ ("admin" : String) = "")]
    rw [if_neg (fun hcond => hcond.1 rfl)]
    rfl
  refine ⟨h1, ?_⟩
  rw [h1]
  exact dictGet_subscribe_self st "admin"

/-- C7: the first frame of every session is the `hello` frame with
payload `{"ok": true}`, ahead of any published event; and in the
`"Ana"` scenario, publishing `{"type":"completed","task":{"id":7}}` to
`"Ana"` puts exactly that payload in the session's queue, whose delivery
is a `task` frame carrying the JSON serialization of exactly that
payload. -/
theorem stream_hello_then_task (evs : List Json) :
    (streamOutput Json.dumps evs).head? = some helloFrame ∧
    (sse_publish (subscribe (PubSub.init : PubSub Json) "Ana").2 "Ana"
        (Json.jobj [("type", .jstr "completed"),
                    ("task", .jobj [("id", .jint 7)])])).heap[0]?
      = some { maxsize := 0,
               items := [Json.jobj [("type", .jstr "completed"),
                                    ("task", .jobj [("id", .jint 7)])]] } ∧
    streamOutput Json.dumps
        [Json.jobj [("type", .jstr "completed"),
                    ("task", .jobj [("id", .jint 7)])]]
      = [helloFrame,
         "event: task\ndata: \x7b\"type\": \"completed\", \"task\": \x7b\"id\": 7\x7d\x7d\n\n"] :=
  ⟨rfl, rfl, rfl⟩

/-- C9 counterexample: the claim says the author of an observation is
never the target of the `new_observation` publish.  Concretely: the task
is assigned to `"Ana"` and `"Ana"` authors the observation; the code
computes `target_username = "Ana"` without consulting the author, so the
author's own channel receives the event. -/
theorem observation_notifies_author_counterexample :
    (notifyObservation
        { registry := [("Ana", [0])],
          heap := [{ maxsize := 0, items := [] }] }
        (some "Ana") 1 "oi" "Ana").heap[0]?
      = some { maxsize := 0, items := [observationEvent 1 "oi" "Ana"] } := rfl

/-- C9 (amended): whenever an observation is added, the
`new_observation` event is published to the task's assignee when there
is one (else to `"admin"`), and additionally to `"admin"` when the first
target is not `"admin"` — regardless of who authored the observation
(`author` is arbitrary here and appears only inside the payload): both
the assignee's channel and the admin channel receive the event. -/
theorem observation_notifies_assignee_and_admin (st : PubSub Json)
    (a : String) (tid : Int) (msg author : String) (ca cd : Nat)
    (la ld : List Json) (hadmin : a ≠ "admin")
    (hra : dictGet st.registry a = [ca])
    (hrd : dictGet st.registry "admin" = [cd])
    (hca : st.heap[ca]? = some { maxsize := 0, items := la })
    (hcd : st.heap[cd]? = some { maxsize := 0, items := ld })
    (hne : ca ≠ cd) :
    (notifyObservation st (some a) tid msg author).heap[ca]?
      = some { maxsize := 0,
               items := la ++ [observationEvent tid msg author] } ∧
    (notifyObservation st (some a) tid msg author).heap[cd]?
      = some { maxsize := 0,
               items := ld ++ [observationEvent tid msg author] } ∧
    notifyObservation st none tid msg author
      = sse_publish st "admin" (observationEvent tid msg author) := by
  have hnotify : notifyObservation st (some a) tid msg author
      = sse_publish
          (sse_publish st a (observationEvent tid msg author))
          "admin" (observationEvent tid msg author) := by
    unfold notifyObservation
    simp [hadmin]
  have h1ca : (sse_publish st a (observationEvent tid msg author)).heap[ca]?
      = some { maxsize := 0,
               items := la ++ [observationEvent tid msg author] } := by
    have := publish_single (observationEvent tid msg author) hra hca
      (by norm_num)
    simpa using this
  have h1cd : (sse_publish st a (observationEvent tid msg author)).heap[cd]?
      = some { maxsize := 0, items := ld } := by
    rw [publish_not_subscribed _ (by rw [hra]; simp [Ne.symm hne])]
    exact hcd
  have hrd1 : dictGet
      (sse_publish st a (observationEvent tid msg author)).registry "admin"
      = [cd] := by
    rw [registry_sse_publish]
    exact hrd
  refine ⟨?_, ?_, ?_⟩
  · rw [hnotify, publish_not_subscribed _ (by rw [hrd1]; simp [hne])]
    exact h1ca
  · rw [hnotify]
    have := publish_single (observationEvent tid msg author) hrd1 h1cd
      (by norm_num)
    simpa using this
  · unfold notifyObservation
    simp

/-- Witness for C9 (amended): `"Ana"` (channel 0) and `"admin"`
(channel 1) are both subscribed; an observation authored by `"Bob"` on a
task assigned to `"Ana"` lands in both queues. -/
theorem observation_notifies_assignee_and_admin_witness :
    (notifyObservation
        { registry := [("Ana", [0]), ("admin", [1])],
          heap := [{ maxsize := 0, items := [] },
                   { maxsize := 0, items := [] }] }
        (some "Ana") 1 "oi" "Bob").heap[0]?
      = some { maxsize := 0, items := [] ++ [observationEvent 1 "oi" "Bob"] } ∧
    (notifyObservation
        { registry := [("Ana", [0]), ("admin", [1])],
          heap := [{ maxsize := 0, items := [] },
                   { maxsize := 0, items := [] }] }
        (some "Ana") 1 "oi" "Bob").heap[1]?
      = some { maxsize := 0, items := [] ++ [observationEvent 1 "oi" "Bob"] } ∧
    notifyObservation
        { registry := [("Ana", [0]), ("admin", [1])],
          heap := [{ maxsize := 0, items := [] },
                   { maxsize := 0, items := [] }] }
        none 1 "oi" "Bob"
      = sse_publish
          { registry := [("Ana", [0]), ("admin", [1])],
            heap := [{ maxsize := 0, items := [] },
                     { maxsize := 0, items := [] }] }
          "admin" (observationEvent 1 "oi" "Bob") :=
  observation_notifies_assignee_and_admin
    { registry := [("Ana", [0]), ("admin", [1])],
      heap := [{ maxsize := 0, items := [] }, { maxsize := 0, items := [] }] }
    "Ana" 1 "oi" "Bob" 0 1 [] [] (by decide) rfl rfl rfl rfl (by decide)

end Tarefas
